import Mathlib

/-!
Shallow embedding of the ticket-categorization pipeline of the
SmartTicketSystem monolith (src/ai_categorization.py, src/config.py).

Strings are modelled at the character-list level so that every Python
string operation used by the source (strip, split, replace, startswith,
lower, substring test, int parsing) has an executable Lean counterpart.
-/

namespace SmartTicket

/-! Configuration constants, from src/config.py. -/

def DEPARTMENTS : List String :=
  ["IT Support", "HR", "Facilities", "Finance", "General"]

def AI_MAX_RETRIES : Nat := 3

def AI_RETRY_DELAY : Nat := 2

def AI_DEFAULT_CONFIDENCE : Int := 70

def AI_FALLBACK_CONFIDENCE : Int := 30

/-! Character-list models of the Python string primitives. -/

/-- Model of Python str.strip(): drop whitespace from both ends. -/
def trimChars (l : List Char) : List Char :=
  ((l.dropWhile Char.isWhitespace).reverse.dropWhile Char.isWhitespace).reverse

/-- Fuel-driven worker for `eraseAll`; fuel is the length of the list. -/
def eraseAllFuel (p : List Char) : Nat → List Char → List Char
  | _, [] => []
  | 0, l => l
  | f + 1, a :: rest =>
    if p ≠ [] ∧ p.isPrefixOf (a :: rest) then
      eraseAllFuel p f ((a :: rest).drop p.length)
    else
      a :: eraseAllFuel p f rest

/-- Model of Python s.replace(p, ""): remove every occurrence of `p`,
left to right, non-overlapping. -/
def eraseAll (p l : List Char) : List Char :=
  eraseAllFuel p l.length l

/-- Model of Python s.split(sep) for a one-character separator:
empty pieces are kept, and the empty string splits to [""]. -/
def splitOnChar (c : Char) : List Char → List (List Char)
  | [] => [[]]
  | a :: rest =>
    if a = c then
      [] :: splitOnChar c rest
    else
      match splitOnChar c rest with
      | [] => [[a]]
      | l :: ls => (a :: l) :: ls

/-- Digits-only value of a character list (none if empty or non-digit). -/
def digitsVal (cs : List Char) : Option Nat :=
  if cs.isEmpty then none
  else
    cs.foldl
      (fun acc c =>
        match acc with
        | none => none
        | some n => if c.isDigit then some (n * 10 + (c.toNat - 48)) else none)
      (some 0)

/-- Model of Python int(s) on an already-stripped string:
an optional sign followed by at least one digit. -/
def parseIntChars (cs : List Char) : Option Int :=
  match cs with
  | '-' :: rest => (digitsVal rest).map (fun n => -(n : Int))
  | '+' :: rest => (digitsVal rest).map (fun n => (n : Int))
  | _ => (digitsVal cs).map (fun n => (n : Int))

/-- Model of Python str.lower() (ASCII letters). -/
def lowerList (l : List Char) : List Char :=
  l.map Char.toLower

/-- Model of the Python substring test `needle in hay`. -/
def listContains (needle : List Char) : List Char → Bool
  | [] => needle.isEmpty
  | a :: rest => needle.isPrefixOf (a :: rest) || listContains needle rest

/-! Fallback scorer, from _fallback_categorization in src/ai_categorization.py. -/

def it_keywords : List String :=
  ["computer", "laptop", "software", "hardware", "network", "internet",
   "email", "password", "login", "system", "application", "printer",
   "wifi", "server", "database", "access", "account"]

def hr_keywords : List String :=
  ["payroll", "salary", "benefits", "leave", "vacation", "sick",
   "employee", "hiring", "training", "performance", "hr", "human resources"]

def facilities_keywords : List String :=
  ["building", "office", "room", "maintenance", "cleaning",
   "parking", "security", "temperature", "hvac", "desk",
   "chair", "facility", "repair"]

def finance_keywords : List String :=
  ["budget", "expense", "invoice", "payment", "reimbursement",
   "purchase", "accounting", "financial", "cost", "money"]

/-- The lowercased concatenation (title + " " + description).lower(). -/
def lowerText (title description : String) : List Char :=
  lowerList (title ++ " " ++ description).toList

/-- Count of keywords from `kws` occurring as substrings of `text`;
each keyword counts at most once. -/
def countMatches (kws : List String) (text : List Char) : Nat :=
  (kws.filter (fun kw => listContains kw.toList text)).length

/-- The scores dict of _fallback_categorization, in insertion order. -/
def fallbackScores (title description : String) : List (String × Nat) :=
  let text := lowerText title description
  [("IT Support", countMatches it_keywords text),
   ("HR", countMatches hr_keywords text),
   ("Facilities", countMatches facilities_keywords text),
   ("Finance", countMatches finance_keywords text),
   ("General", 0)]

/-- Model of Python max(scores, key=scores.get) over an association list:
the first entry attaining the maximum value wins. -/
def pickMax : List (String × Nat) → String × Nat
  | [] => ("General", 0)
  | p :: ps => ps.foldl (fun best q => if q.2 > best.2 then q else best) p

/-- _fallback_categorization(title, description): keyword scoring with the
zero-score General default and the min(50 + 10 * n, 75) confidence. -/
def fallback_categorization (title description : String) : String × Int :=
  let best := pickMax (fallbackScores title description)
  if best.2 = 0 then
    ("General", AI_FALLBACK_CONFIDENCE)
  else
    (best.1, min (50 + (best.2 : Int) * 10) 75)

/-! Response parsing, from _parse_ai_response in src/ai_categorization.py. -/

def deptTag : List Char := "Department:".toList

def confTag : List Char := "Confidence:".toList

/-- Case-insensitive lookup of a candidate department name in DEPARTMENTS
(first match wins). -/
def findDept (cand : List Char) : Option String :=
  DEPARTMENTS.find? (fun vd => lowerList vd.toList == lowerList cand)

/-- One iteration of the line loop of _parse_ai_response. -/
def parseLine (acc : Option String × Option Int) (rawLine : List Char) :
    Option String × Option Int :=
  let line := trimChars rawLine
  if deptTag.isPrefixOf line then
    match findDept (trimChars (eraseAll deptTag line)) with
    | some d => (some d, acc.2)
    | none => acc
  else if confTag.isPrefixOf line then
    match parseIntChars (trimChars (eraseAll confTag line)) with
    | some n => (acc.1, some (max 0 (min 100 n)))
    | none => (acc.1, none)
  else acc

/-- _parse_ai_response on a character list: fold the line loop over the
newline-split response. -/
def parseCore (l : List Char) : Option String × Option Int :=
  (splitOnChar '\n' l).foldl parseLine (none, none)

/-- _parse_ai_response(response_text): extract (department, confidence). -/
def parse_ai_response (response_text : String) : Option String × Option Int :=
  parseCore response_text.toList

/-! Classifier gateway, from categorize_ticket in src/ai_categorization.py.
The external classifier is a behavior: for each attempt index, either a
response text or a typed failure (the source catches every exception the
same way). -/

inductive CallError where
  | rateLimited
  | connectionFailed
  | protocolError
  | configurationError
deriving DecidableEq, Repr

/-- Observable trace of one categorize_ticket run: the returned pair, the
number of call attempts performed, the number of backoff sleeps (each of
AI_RETRY_DELAY seconds), and whether the pair came from a successfully
parsed classifier response. -/
structure CategorizeTrace where
  result : String × Int
  attempts : Nat
  sleeps : Nat
  aiDerived : Bool
deriving DecidableEq, Repr

/-- The retry loop of categorize_ticket: `attempt` is the current 0-based
attempt index, the second Nat the remaining attempts. A hard call failure
sleeps unless it is the last attempt; a parse failure retries immediately. -/
def categorizeAux (beh : Nat → Except CallError String) (title description : String) :
    Nat → Nat → CategorizeTrace
  | _, 0 => ⟨fallback_categorization title description, 0, 0, false⟩
  | attempt, r + 1 =>
    match beh attempt with
    | .ok responseText =>
      match parse_ai_response responseText with
      | (some d, conf) =>
        if !d.isEmpty && DEPARTMENTS.contains d then
          ⟨(d, conf.getD AI_DEFAULT_CONFIDENCE), 1, 0, true⟩
        else
          let rest := categorizeAux beh title description (attempt + 1) r
          ⟨rest.result, rest.attempts + 1, rest.sleeps, rest.aiDerived⟩
      | (none, _) =>
        let rest := categorizeAux beh title description (attempt + 1) r
        ⟨rest.result, rest.attempts + 1, rest.sleeps, rest.aiDerived⟩
    | .error _ =>
      let rest := categorizeAux beh title description (attempt + 1) r
      ⟨rest.result, rest.attempts + 1, rest.sleeps + (if 0 < r then 1 else 0),
       rest.aiDerived⟩

/-- Full trace of categorize_ticket(title, description). -/
def categorizeRun (beh : Nat → Except CallError String) (title description : String) :
    CategorizeTrace :=
  categorizeAux beh title description 0 AI_MAX_RETRIES

/-- categorize_ticket(title, description): the pair the caller receives. -/
def categorize_ticket (beh : Nat → Except CallError String) (title description : String) :
    String × Int :=
  (categorizeRun beh title description).result

/-- One attempt of the loop body with explicit exception propagation:
an uncaught exception of _call_ai_service would surface here as .error. -/
def attemptE (beh : Nat → Except CallError String) (attempt : Nat) :
    Except CallError (Option (String × Int)) :=
  match beh attempt with
  | .error e => .error e
  | .ok responseText =>
    match parse_ai_response responseText with
    | (some d, conf) =>
      if !d.isEmpty && DEPARTMENTS.contains d then
        .ok (some (d, conf.getD AI_DEFAULT_CONFIDENCE))
      else
        .ok none
    | (none, _) => .ok none

/-- The retry loop with explicit exception plumbing: the except-handler of
the source absorbs every attempt failure and continues. -/
def categorizeAuxE (beh : Nat → Except CallError String) (title description : String) :
    Nat → Nat → Except CallError (String × Int)
  | _, 0 => .ok (fallback_categorization title description)
  | attempt, r + 1 =>
    match attemptE beh attempt with
    | .ok (some p) => .ok p
    | .ok none => categorizeAuxE beh title description (attempt + 1) r
    | .error _ => categorizeAuxE beh title description (attempt + 1) r

/-- categorize_ticket as seen through the exception monad. -/
def categorize_ticketE (beh : Nat → Except CallError String) (title description : String) :
    Except CallError (String × Int) :=
  categorizeAuxE beh title description 0 AI_MAX_RETRIES

/-- The department extracted by one line of the parser, independent of the
accumulator: some valid department, or none. -/
def deptHit (rawLine : List Char) : Option String :=
  let line := trimChars rawLine
  if deptTag.isPrefixOf line then findDept (trimChars (eraseAll deptTag line))
  else none

/-- A response is a soft failure for the retry loop when no valid department
can be extracted from it (source: the else-branch after parsing). -/
def softExtract (resp : String) : Bool :=
  match (parse_ai_response resp).1 with
  | some d => !(!d.isEmpty && DEPARTMENTS.contains d)
  | none => true

/-!
Lemmas and theorems. The claim theorems carry doc comments naming the claim.
-/

lemma parseLine_fst (acc : Option String × Option Int) (l : List Char) :
    (parseLine acc l).1 = (deptHit l).orElse (fun _ => acc.1) := by
  simp only [parseLine, deptHit]
  split_ifs with h1 h2
  · cases hf : findDept (trimChars (eraseAll deptTag (trimChars l))) <;>
      simp [hf, Option.orElse]
  · cases hp : parseIntChars (trimChars (eraseAll confTag (trimChars l))) <;>
      simp [Option.orElse]
  · simp [Option.orElse]

lemma foldl_parseLine_fst (ls : List (List Char)) :
    ∀ acc : Option String × Option Int,
      (ls.foldl parseLine acc).1 =
        ((ls.foldl parseLine (none, none)).1).orElse (fun _ => acc.1) := by
  induction ls with
  | nil => intro acc; simp [Option.orElse]
  | cons l ls ih =>
    intro acc
    simp only [List.foldl_cons]
    rw [ih (parseLine acc l), ih (parseLine (none, none) l),
        parseLine_fst acc l, parseLine_fst (none, none) l]
    cases (ls.foldl parseLine (none, none)).1 <;> cases deptHit l <;>
      simp [Option.orElse]

lemma splitOnChar_ne_nil (c : Char) (l : List Char) : splitOnChar c l ≠ [] := by
  cases l with
  | nil => simp [splitOnChar]
  | cons a rest =>
    simp only [splitOnChar]
    split_ifs
    · simp
    · cases h : splitOnChar c rest <;> simp

lemma splitOnChar_append (c : Char) (xs ys : List Char) :
    splitOnChar c (xs ++ c :: ys) = splitOnChar c xs ++ splitOnChar c ys := by
  induction xs with
  | nil => simp [splitOnChar]
  | cons a xs ih =>
    simp only [List.cons_append, splitOnChar, List.append_eq]
    split_ifs with h
    · rw [ih]; simp [splitOnChar, h]
    · rw [ih]
      cases hx : splitOnChar c xs with
      | nil => exact absurd hx (splitOnChar_ne_nil c xs)
      | cons p ps => simp [splitOnChar, h, hx]

lemma parseCore_append_fst (l1 l2 : List Char) :
    (parseCore (l1 ++ '\n' :: l2)).1 =
      ((parseCore l2).1).orElse (fun _ => (parseCore l1).1) := by
  unfold parseCore
  rw [splitOnChar_append, List.foldl_append, foldl_parseLine_fst]

lemma deptHit_mem {l : List Char} {d : String} (h : deptHit l = some d) :
    d ∈ DEPARTMENTS := by
  simp only [deptHit, findDept] at h
  split_ifs at h
  exact List.mem_of_find?_eq_some h

lemma foldl_parseLine_fst_mem (ls : List (List Char)) :
    ∀ acc : Option String × Option Int,
      (∀ d, acc.1 = some d → d ∈ DEPARTMENTS) →
      ∀ d, (ls.foldl parseLine acc).1 = some d → d ∈ DEPARTMENTS := by
  induction ls with
  | nil => intro acc hacc; exact hacc
  | cons l ls ih =>
    intro acc hacc d h
    refine ih (parseLine acc l) ?_ d h
    intro d0 h0
    rw [parseLine_fst] at h0
    cases hd : deptHit l with
    | some x =>
      rw [hd] at h0
      simp [Option.orElse] at h0
      exact h0 ▸ deptHit_mem hd
    | none =>
      rw [hd] at h0
      simp [Option.orElse] at h0
      exact hacc d0 h0

lemma parse_fst_mem {resp : String} {d : String}
    (h : (parse_ai_response resp).1 = some d) : d ∈ DEPARTMENTS := by
  refine foldl_parseLine_fst_mem _ (none, none) ?_ d h
  intro d0 h0
  cases h0

lemma parseLine_snd_range {acc : Option String × Option Int} {l : List Char}
    (hacc : ∀ c, acc.2 = some c → 0 ≤ c ∧ c ≤ 100) :
    ∀ c, (parseLine acc l).2 = some c → 0 ≤ c ∧ c ≤ 100 := by
  intro c h
  simp only [parseLine] at h
  split_ifs at h
  · rcases hf : findDept (trimChars (eraseAll deptTag (trimChars l))) with _ | x <;>
      rw [hf] at h
    · exact hacc c h
    · exact hacc c (by simpa using h)
  · rcases hp : parseIntChars (trimChars (eraseAll confTag (trimChars l))) with _ | n <;>
      rw [hp] at h
    · cases h
    · simp at h
      exact ⟨h ▸ le_max_left 0 _, h ▸ max_le (by norm_num) ((min_le_left _ _))⟩
  · exact hacc c h

lemma parse_snd_range {resp : String} {c : Int}
    (h : (parse_ai_response resp).2 = some c) : 0 ≤ c ∧ c ≤ 100 := by
  have main : ∀ (ls : List (List Char)) (acc : Option String × Option Int),
      (∀ c0, acc.2 = some c0 → 0 ≤ c0 ∧ c0 ≤ 100) →
      ∀ c0, (ls.foldl parseLine acc).2 = some c0 → 0 ≤ c0 ∧ c0 ≤ 100 := by
    intro ls
    induction ls with
    | nil => intro acc hacc; exact hacc
    | cons l ls ih =>
      intro acc hacc c0 h0
      exact ih (parseLine acc l) (parseLine_snd_range hacc) c0 h0
  refine main _ (none, none) ?_ c h
  intro c0 h0
  cases h0

lemma fallback_score_zero (t d : String)
    (h : (pickMax (fallbackScores t d)).2 = 0) :
    fallback_categorization t d = ("General", AI_FALLBACK_CONFIDENCE) := by
  simp only [fallback_categorization]
  rw [if_pos h]

lemma fallback_score_pos (t d : String)
    (h : (pickMax (fallbackScores t d)).2 ≠ 0) :
    fallback_categorization t d =
      ((pickMax (fallbackScores t d)).1,
       min (50 + ((pickMax (fallbackScores t d)).2 : Int) * 10) 75) := by
  simp only [fallback_categorization]
  rw [if_neg h]

lemma pickMax_fallbackScores_mem (t d : String) :
    (pickMax (fallbackScores t d)).1 ∈ DEPARTMENTS := by
  simp only [pickMax, fallbackScores, List.foldl]
  split_ifs <;> simp [DEPARTMENTS]

lemma fallback_result_mem (t d : String) :
    (fallback_categorization t d).1 ∈ DEPARTMENTS := by
  by_cases h : (pickMax (fallbackScores t d)).2 = 0
  · rw [fallback_score_zero t d h]; simp [DEPARTMENTS]
  · rw [fallback_score_pos t d h]; exact pickMax_fallbackScores_mem t d

lemma fallback_conf_pos_range (t d : String)
    (h : (pickMax (fallbackScores t d)).2 ≠ 0) :
    60 ≤ (fallback_categorization t d).2 ∧ (fallback_categorization t d).2 ≤ 75 := by
  rw [fallback_score_pos t d h]
  have h1 : (1 : Int) ≤ ((pickMax (fallbackScores t d)).2 : Int) := by
    exact_mod_cast Nat.one_le_iff_ne_zero.mpr h
  constructor
  · exact le_min (by nlinarith) (by norm_num)
  · exact min_le_right _ _

lemma fallback_conf_bounds (t d : String) :
    0 ≤ (fallback_categorization t d).2 ∧ (fallback_categorization t d).2 ≤ 100 := by
  by_cases h : (pickMax (fallbackScores t d)).2 = 0
  · rw [fallback_score_zero t d h]
    norm_num [AI_FALLBACK_CONFIDENCE]
  · have := fallback_conf_pos_range t d h
    omega

lemma dept_contains {dep : String} (hmem : dep ∈ DEPARTMENTS) :
    (!dep.isEmpty && DEPARTMENTS.contains dep) = true := by
  have hall : ∀ x ∈ DEPARTMENTS, (!x.isEmpty && DEPARTMENTS.contains x) = true := by
    decide
  exact hall dep hmem

lemma categorizeAux_error (beh : Nat → Except CallError String) (t d : String)
    {attempt r : Nat} {e : CallError} (hb : beh attempt = .error e) :
    categorizeAux beh t d attempt (r + 1) =
      ⟨(categorizeAux beh t d (attempt + 1) r).result,
       (categorizeAux beh t d (attempt + 1) r).attempts + 1,
       (categorizeAux beh t d (attempt + 1) r).sleeps + (if 0 < r then 1 else 0),
       (categorizeAux beh t d (attempt + 1) r).aiDerived⟩ := by
  simp only [categorizeAux, hb]

lemma categorizeAux_soft (beh : Nat → Except CallError String) (t d : String)
    {attempt r : Nat} {resp : String} (hb : beh attempt = .ok resp)
    (hs : softExtract resp = true) :
    categorizeAux beh t d attempt (r + 1) =
      ⟨(categorizeAux beh t d (attempt + 1) r).result,
       (categorizeAux beh t d (attempt + 1) r).attempts + 1,
       (categorizeAux beh t d (attempt + 1) r).sleeps,
       (categorizeAux beh t d (attempt + 1) r).aiDerived⟩ := by
  simp only [categorizeAux, hb]
  rcases hpair : parse_ai_response resp with ⟨d?, c?⟩
  cases d? with
  | none => simp [hpair]
  | some dep =>
    have hcond : (!dep.isEmpty && DEPARTMENTS.contains dep) = false := by
      unfold softExtract at hs
      rw [hpair] at hs
      have hs2 : (!(!dep.isEmpty && DEPARTMENTS.contains dep)) = true := hs
      cases hcb : (!dep.isEmpty && DEPARTMENTS.contains dep) with
      | false => rfl
      | true => rw [hcb] at hs2; simp at hs2
    simp only [hpair]
    rw [hcond]
    simp

lemma categorizeAux_success (beh : Nat → Except CallError String) (t d : String)
    {attempt r : Nat} {resp dep : String} (hb : beh attempt = .ok resp)
    (hp : (parse_ai_response resp).1 = some dep) :
    categorizeAux beh t d attempt (r + 1) =
      ⟨(dep, ((parse_ai_response resp).2).getD AI_DEFAULT_CONFIDENCE), 1, 0, true⟩ := by
  have hmem : dep ∈ DEPARTMENTS := parse_fst_mem hp
  have hcond := dept_contains hmem
  rcases hpair : parse_ai_response resp with ⟨d?, c?⟩
  rw [hpair] at hp
  simp at hp
  subst hp
  simp only [categorizeAux, hb, hpair]
  rw [hcond]
  simp

lemma categorizeAux_valid (beh : Nat → Except CallError String) (t d : String) :
    ∀ r attempt,
      (categorizeAux beh t d attempt r).result.1 ∈ DEPARTMENTS ∧
      0 ≤ (categorizeAux beh t d attempt r).result.2 ∧
      (categorizeAux beh t d attempt r).result.2 ≤ 100 := by
  intro r
  induction r with
  | zero =>
    intro attempt
    have h1 := fallback_result_mem t d
    have h2 := fallback_conf_bounds t d
    exact ⟨h1, h2.1, h2.2⟩
  | succ r ih =>
    intro attempt
    cases hb : beh attempt with
    | error e =>
      rw [categorizeAux_error beh t d hb]
      exact ih (attempt + 1)
    | ok resp =>
      rcases hp : (parse_ai_response resp).1 with _ | dep
      · have hs : softExtract resp = true := by
          unfold softExtract
          rw [hp]
        rw [categorizeAux_soft beh t d hb hs]
        exact ih (attempt + 1)
      · rw [categorizeAux_success beh t d hb hp]
        refine ⟨parse_fst_mem hp, ?_, ?_⟩ <;>
          rcases hc : (parse_ai_response resp).2 with _ | c
        · simp [AI_DEFAULT_CONFIDENCE]
        · simpa using (parse_snd_range hc).1
        · simp [AI_DEFAULT_CONFIDENCE]
        · simpa using (parse_snd_range hc).2

lemma aiDerived_false_result (beh : Nat → Except CallError String) (t d : String) :
    ∀ r attempt,
      (categorizeAux beh t d attempt r).aiDerived = false →
      (categorizeAux beh t d attempt r).result = fallback_categorization t d := by
  intro r
  induction r with
  | zero => intro attempt _; rfl
  | succ r ih =>
    intro attempt hfalse
    cases hb : beh attempt with
    | error e =>
      rw [categorizeAux_error beh t d hb] at hfalse ⊢
      exact ih (attempt + 1) hfalse
    | ok resp =>
      rcases hp : (parse_ai_response resp).1 with _ | dep
      · have hs : softExtract resp = true := by
          unfold softExtract
          rw [hp]
        rw [categorizeAux_soft beh t d hb hs] at hfalse ⊢
        exact ih (attempt + 1) hfalse
      · rw [categorizeAux_success beh t d hb hp] at hfalse
        cases hfalse

lemma categorizeAuxE_ok (beh : Nat → Except CallError String) (t d : String) :
    ∀ r attempt,
      categorizeAuxE beh t d attempt r =
        .ok ((categorizeAux beh t d attempt r).result) := by
  intro r
  induction r with
  | zero => intro attempt; rfl
  | succ r ih =>
    intro attempt
    cases hb : beh attempt with
    | error e =>
      have ha : attemptE beh attempt = .error e := by
        simp [attemptE, hb]
      rw [categorizeAux_error beh t d hb]
      simp only [categorizeAuxE, ha]
      exact ih (attempt + 1)
    | ok resp =>
      rcases hpair : parse_ai_response resp with ⟨d?, c?⟩
      cases d? with
      | none =>
        have hp : (parse_ai_response resp).1 = none := by rw [hpair]
        have hs : softExtract resp = true := by
          unfold softExtract
          rw [hp]
        have ha : attemptE beh attempt = .ok none := by
          simp [attemptE, hb, hpair]
        rw [categorizeAux_soft beh t d hb hs]
        simp only [categorizeAuxE, ha]
        exact ih (attempt + 1)
      | some dep =>
        have hp : (parse_ai_response resp).1 = some dep := by rw [hpair]
        have hcond := dept_contains (parse_fst_mem hp)
        have ha : attemptE beh attempt = .ok (some (dep, c?.getD AI_DEFAULT_CONFIDENCE)) := by
          simp only [attemptE, hb, hpair]
          rw [hcond]
          simp
        rw [categorizeAux_success beh t d hb hp]
        simp only [categorizeAuxE, ha]
        rw [hpair]

/-- C1: for every title, description and classifier behavior, categorize_ticket
returns a department in the five-member DEPARTMENTS enumeration and a
confidence in [0, 100]; the same holds for the fallback scorer on every input. -/
theorem categorize_and_score_range (beh : Nat → Except CallError String) (t d : String) :
    (categorize_ticket beh t d).1 ∈ DEPARTMENTS ∧
    0 ≤ (categorize_ticket beh t d).2 ∧ (categorize_ticket beh t d).2 ≤ 100 ∧
    (fallback_categorization t d).1 ∈ DEPARTMENTS ∧
    0 ≤ (fallback_categorization t d).2 ∧ (fallback_categorization t d).2 ≤ 100 := by
  have h1 := categorizeAux_valid beh t d AI_MAX_RETRIES 0
  have h2 := fallback_result_mem t d
  have h3 := fallback_conf_bounds t d
  exact ⟨h1.1, h1.2.1, h1.2.2, h2, h3.1, h3.2⟩

/-- C2: categorize_ticket never propagates an internal failure: under the
exception-transparent semantics it always returns ok with the same pair, and
whenever no classifier response was accepted the pair is the fallback result. -/
theorem categorize_never_fails (beh : Nat → Except CallError String) (t d : String) :
    categorize_ticketE beh t d = Except.ok (categorize_ticket beh t d) ∧
    ((categorizeRun beh t d).aiDerived = false →
      categorize_ticket beh t d = fallback_categorization t d) := by
  constructor
  · exact categorizeAuxE_ok beh t d AI_MAX_RETRIES 0
  · intro h
    exact aiDerived_false_result beh t d AI_MAX_RETRIES 0 h

theorem categorize_never_fails_witness :
    categorize_ticketE (fun _ => Except.error CallError.rateLimited) "a" "b" =
      Except.ok (categorize_ticket (fun _ => Except.error CallError.rateLimited) "a" "b") ∧
    categorize_ticket (fun _ => Except.error CallError.rateLimited) "a" "b" =
      fallback_categorization "a" "b" :=
  ⟨(categorize_never_fails (fun _ => Except.error CallError.rateLimited) "a" "b").1,
   (categorize_never_fails (fun _ => Except.error CallError.rateLimited) "a" "b").2 (by decide)⟩

/-- C3: the fallback selects the department with the maximum keyword count,
ties resolved by the enumeration order IT Support, HR, Facilities, Finance,
General; in particular a nonzero IT Support / HR tie resolves to IT Support. -/
theorem fallback_max_tiebreak (t d : String) :
    ((fallback_categorization t d).1 =
      (let a := countMatches it_keywords (lowerText t d)
       let b := countMatches hr_keywords (lowerText t d)
       let c := countMatches facilities_keywords (lowerText t d)
       let e := countMatches finance_keywords (lowerText t d)
       if a = 0 ∧ b = 0 ∧ c = 0 ∧ e = 0 then "General"
       else if b ≤ a ∧ c ≤ a ∧ e ≤ a then "IT Support"
       else if c ≤ b ∧ e ≤ b then "HR"
       else if e ≤ c then "Facilities"
       else "Finance")) ∧
    (countMatches it_keywords (lowerText t d) = countMatches hr_keywords (lowerText t d) →
     countMatches it_keywords (lowerText t d) ≠ 0 →
     countMatches facilities_keywords (lowerText t d) ≤ countMatches it_keywords (lowerText t d) →
     countMatches finance_keywords (lowerText t d) ≤ countMatches it_keywords (lowerText t d) →
     (fallback_categorization t d).1 = "IT Support") := by
  have hmain : (fallback_categorization t d).1 =
      (let a := countMatches it_keywords (lowerText t d)
       let b := countMatches hr_keywords (lowerText t d)
       let c := countMatches facilities_keywords (lowerText t d)
       let e := countMatches finance_keywords (lowerText t d)
       if a = 0 ∧ b = 0 ∧ c = 0 ∧ e = 0 then "General"
       else if b ≤ a ∧ c ≤ a ∧ e ≤ a then "IT Support"
       else if c ≤ b ∧ e ≤ b then "HR"
       else if e ≤ c then "Facilities"
       else "Finance") := by
    simp only [fallback_categorization, fallbackScores, pickMax, List.foldl]
    split_ifs <;> first | rfl | omega
  refine ⟨hmain, ?_⟩
  intro hab hne hca hea
  rw [hmain]
  show (if countMatches it_keywords (lowerText t d) = 0 ∧
          countMatches hr_keywords (lowerText t d) = 0 ∧
          countMatches facilities_keywords (lowerText t d) = 0 ∧
          countMatches finance_keywords (lowerText t d) = 0 then "General"
        else if countMatches hr_keywords (lowerText t d) ≤ countMatches it_keywords (lowerText t d) ∧
          countMatches facilities_keywords (lowerText t d) ≤ countMatches it_keywords (lowerText t d) ∧
          countMatches finance_keywords (lowerText t d) ≤ countMatches it_keywords (lowerText t d) then "IT Support"
        else if countMatches facilities_keywords (lowerText t d) ≤ countMatches hr_keywords (lowerText t d) ∧
          countMatches finance_keywords (lowerText t d) ≤ countMatches hr_keywords (lowerText t d) then "HR"
        else if countMatches finance_keywords (lowerText t d) ≤ countMatches facilities_keywords (lowerText t d) then "Facilities"
        else "Finance") = "IT Support"
  split_ifs <;> first | rfl | omega

theorem fallback_max_tiebreak_witness :
    countMatches it_keywords (lowerText "computer laptop" "payroll salary") =
      countMatches hr_keywords (lowerText "computer laptop" "payroll salary") ∧
    (fallback_categorization "computer laptop" "payroll salary").1 = "IT Support" :=
  ⟨by decide,
   (fallback_max_tiebreak "computer laptop" "payroll salary").2
     (by decide) (by decide) (by decide) (by decide)⟩

/-- C4: when no keyword from any of the four tables occurs as a substring of
the lowercased concatenation, the fallback returns (General, 30). -/
theorem score_no_keywords_general (t d : String)
    (h : ∀ kw ∈ it_keywords ++ hr_keywords ++ facilities_keywords ++ finance_keywords,
        listContains kw.toList (lowerText t d) = false) :
    fallback_categorization t d = ("General", AI_FALLBACK_CONFIDENCE) := by
  have hz : ∀ kws : List String,
      (∀ kw ∈ kws, listContains kw.toList (lowerText t d) = false) →
      countMatches kws (lowerText t d) = 0 := by
    intro kws hk
    have hnil : kws.filter (fun kw => listContains kw.toList (lowerText t d)) = [] := by
      rw [List.filter_eq_nil_iff]
      intro a ha
      have hka := hk a ha
      simpa [String.toList] using hka
    unfold countMatches
    rw [hnil]
    rfl
  have ha := hz it_keywords (fun kw hkw => h kw (by simp [hkw]))
  have hb := hz hr_keywords (fun kw hkw => h kw (by simp [hkw]))
  have hc := hz facilities_keywords (fun kw hkw => h kw (by simp [hkw]))
  have he := hz finance_keywords (fun kw hkw => h kw (by simp [hkw]))
  have hpick : (pickMax (fallbackScores t d)).2 = 0 := by
    simp [pickMax, fallbackScores, List.foldl, ha, hb, hc, he]
  rw [fallback_score_zero t d hpick]

theorem score_no_keywords_general_witness :
    fallback_categorization "zz" "qq" = ("General", AI_FALLBACK_CONFIDENCE) :=
  score_no_keywords_general "zz" "qq" (by decide)

/-- C5: on nonzero winning count n the fallback confidence is
min(50 + 10 * n, 75); one lone IT Support keyword gives (IT Support, 60) and
3 Finance keywords with 1 HR keyword give (Finance, 75). -/
theorem score_confidence_formula (t d : String) :
    ((pickMax (fallbackScores t d)).2 ≠ 0 →
      (fallback_categorization t d).2 =
        min (50 + 10 * ((pickMax (fallbackScores t d)).2 : Int)) 75) ∧
    (countMatches it_keywords (lowerText t d) = 1 →
     countMatches hr_keywords (lowerText t d) = 0 →
     countMatches facilities_keywords (lowerText t d) = 0 →
     countMatches finance_keywords (lowerText t d) = 0 →
     fallback_categorization t d = ("IT Support", 60)) ∧
    (countMatches finance_keywords (lowerText t d) = 3 →
     countMatches hr_keywords (lowerText t d) = 1 →
     countMatches it_keywords (lowerText t d) = 0 →
     countMatches facilities_keywords (lowerText t d) = 0 →
     fallback_categorization t d = ("Finance", 75)) := by
  refine ⟨?_, ?_, ?_⟩
  · intro h
    rw [fallback_score_pos t d h]
    simp [mul_comm]
  · intro h1 h2 h3 h4
    have hpick : pickMax (fallbackScores t d) = ("IT Support", 1) := by
      simp only [fallbackScores, h1, h2, h3, h4]
      decide
    have hne : (pickMax (fallbackScores t d)).2 ≠ 0 := by
      rw [hpick]; decide
    rw [fallback_score_pos t d hne, hpick]
    decide
  · intro h1 h2 h3 h4
    have hpick : pickMax (fallbackScores t d) = ("Finance", 3) := by
      simp only [fallbackScores, h1, h2, h3, h4]
      decide
    have hne : (pickMax (fallbackScores t d)).2 ≠ 0 := by
      rw [hpick]; decide
    rw [fallback_score_pos t d hne, hpick]
    decide

theorem score_confidence_formula_witness :
    fallback_categorization "computer" "" = ("IT Support", 60) ∧
    fallback_categorization "budget expense invoice payroll" "" = ("Finance", 75) :=
  ⟨(score_confidence_formula "computer" "").2.1
     (by decide) (by decide) (by decide) (by decide),
   (score_confidence_formula "budget expense invoice payroll" "").2.2
     (by decide) (by decide) (by decide) (by decide)⟩

/-- C6: when every attempt fails hard, categorize_ticket performs exactly
AI_MAX_RETRIES call attempts, sleeps AI_MAX_RETRIES - 1 times (each sleep of
AI_RETRY_DELAY seconds), and returns exactly the fallback result. -/
theorem categorize_all_fail_trace (beh : Nat → Except CallError String) (t d : String)
    (h : ∀ i, i < AI_MAX_RETRIES → ∃ e, beh i = .error e) :
    categorizeRun beh t d =
      ⟨fallback_categorization t d, AI_MAX_RETRIES, AI_MAX_RETRIES - 1, false⟩ := by
  obtain ⟨e0, h0⟩ := h 0 (by decide)
  obtain ⟨e1, h1⟩ := h 1 (by decide)
  obtain ⟨e2, h2⟩ := h 2 (by decide)
  show categorizeAux beh t d 0 3 = ⟨fallback_categorization t d, 3, 2, false⟩
  rw [categorizeAux_error beh t d h0, categorizeAux_error beh t d h1,
      categorizeAux_error beh t d h2]
  simp [categorizeAux]

theorem categorize_all_fail_trace_witness :
    categorizeRun (fun _ => Except.error CallError.connectionFailed) "hello" "world" =
      ⟨("General", 30), 3, 2, false⟩ :=
  (categorize_all_fail_trace (fun _ => Except.error CallError.connectionFailed)
      "hello" "world" (fun i _ => ⟨CallError.connectionFailed, rfl⟩)).trans (by decide)

/-- C7: attempts whose call succeeds but yields no valid department consume a
retry slot with no backoff sleep; a classifier that soft-fails on every
attempt exhausts AI_MAX_RETRIES attempts with zero sleeps and falls back. -/
theorem categorize_soft_fail_trace (beh : Nat → Except CallError String) (t d : String)
    (h : ∀ i, i < AI_MAX_RETRIES → ∃ resp, beh i = .ok resp ∧ softExtract resp = true) :
    categorizeRun beh t d =
      ⟨fallback_categorization t d, AI_MAX_RETRIES, 0, false⟩ := by
  obtain ⟨r0, hb0, hs0⟩ := h 0 (by decide)
  obtain ⟨r1, hb1, hs1⟩ := h 1 (by decide)
  obtain ⟨r2, hb2, hs2⟩ := h 2 (by decide)
  show categorizeAux beh t d 0 3 = ⟨fallback_categorization t d, 3, 0, false⟩
  rw [categorizeAux_soft beh t d hb0 hs0, categorizeAux_soft beh t d hb1 hs1,
      categorizeAux_soft beh t d hb2 hs2]
  simp [categorizeAux]

theorem categorize_soft_fail_trace_witness :
    categorizeRun (fun _ => Except.ok "Department: Marketing") "a" "b" =
      ⟨("General", 30), 3, 0, false⟩ :=
  (categorize_soft_fail_trace (fun _ => Except.ok "Department: Marketing") "a" "b"
      (fun i _ => ⟨"Department: Marketing", rfl, by decide⟩)).trans (by decide)

/-- C8: a first response parsing to a valid department returns immediately
with one attempt and no sleep; the department name matches case-insensitively,
a missing or unparseable confidence defaults to AI_DEFAULT_CONFIDENCE, and a
parsed confidence is clamped to [0, 100]. -/
theorem categorize_first_success (beh : Nat → Except CallError String)
    (t d resp dep : String) (hb : beh 0 = .ok resp)
    (hp : (parse_ai_response resp).1 = some dep) :
    categorizeRun beh t d =
      ⟨(dep, ((parse_ai_response resp).2).getD AI_DEFAULT_CONFIDENCE), 1, 0, true⟩ ∧
    parse_ai_response "Department: HR\nConfidence: 85" = (some "HR", some 85) ∧
    parse_ai_response "Department: hr" = (some "HR", none) ∧
    parse_ai_response "Department: HR\nConfidence: soon" = (some "HR", none) ∧
    parse_ai_response "Department: HR\nConfidence: 150" = (some "HR", some 100) ∧
    categorizeRun (fun _ => Except.ok "Department: HR") "x" "y" =
      ⟨("HR", AI_DEFAULT_CONFIDENCE), 1, 0, true⟩ := by
  refine ⟨?_, by decide, by decide, by decide, by decide, by decide⟩
  show categorizeAux beh t d 0 3 = _
  exact categorizeAux_success beh t d hb hp

theorem categorize_first_success_witness :
    categorizeRun (fun _ => Except.ok "Department: HR\nConfidence: 85") "x" "y" =
      ⟨("HR", 85), 1, 0, true⟩ :=
  ((categorize_first_success (fun _ => Except.ok "Department: HR\nConfidence: 85")
      "x" "y" "Department: HR\nConfidence: 85" "HR" rfl (by decide)).1).trans (by decide)

/-- C9 as claimed is false: a keyword fallback with two matches returns
confidence 70, so confidence at least 70 does not imply an AI-derived result. -/
theorem confidence_not_path_identifying :
    ¬ (∀ (beh : Nat → Except CallError String) (t d : String),
        70 ≤ (categorizeRun beh t d).result.2 →
        (categorizeRun beh t d).aiDerived = true) := by
  intro h
  exact absurd
    (h (fun _ => Except.error CallError.connectionFailed) "computer laptop" "" (by decide))
    (by decide)

/-- C9 amended: for a fallback-derived result, confidence 30 holds exactly
when no keyword matched, and any keyword match puts the confidence in
[60, 75]; the raw confidence value alone does not identify the path, since
the classifier may itself report any confidence including 30, and the
keyword fallback reaches 70 and 75. -/
theorem fallback_confidence_semantics (beh : Nat → Except CallError String)
    (t d : String) (h : (categorizeRun beh t d).aiDerived = false) :
    ((categorize_ticket beh t d).2 = 30 ↔ (pickMax (fallbackScores t d)).2 = 0) ∧
    ((pickMax (fallbackScores t d)).2 ≠ 0 →
      60 ≤ (categorize_ticket beh t d).2 ∧ (categorize_ticket beh t d).2 ≤ 75) := by
  have hres : categorize_ticket beh t d = fallback_categorization t d :=
    aiDerived_false_result beh t d AI_MAX_RETRIES 0 h
  rw [hres]
  constructor
  · constructor
    · intro h30
      by_contra hne
      have := fallback_conf_pos_range t d hne
      omega
    · intro hz
      rw [fallback_score_zero t d hz]
      norm_num [AI_FALLBACK_CONFIDENCE]
  · exact fallback_conf_pos_range t d

theorem fallback_confidence_semantics_witness :
    ((categorize_ticket (fun _ => Except.error CallError.protocolError) "a" "b").2 = 30 ↔
      (pickMax (fallbackScores "a" "b")).2 = 0) ∧
    ((pickMax (fallbackScores "a" "b")).2 ≠ 0 →
      60 ≤ (categorize_ticket (fun _ => Except.error CallError.protocolError) "a" "b").2 ∧
      (categorize_ticket (fun _ => Except.error CallError.protocolError) "a" "b").2 ≤ 75) :=
  fallback_confidence_semantics (fun _ => Except.error CallError.protocolError) "a" "b"
    (by decide)

/-- C10: across newline-joined responses the last valid Department line wins
and an invalid one never erases an earlier match: the extracted department of
the concatenation is that of the second part when present, else the first. -/
theorem parse_last_valid_department_wins (r1 r2 : String) :
    ((parse_ai_response (r1 ++ "\n" ++ r2)).1 =
      ((parse_ai_response r2).1).orElse (fun _ => (parse_ai_response r1).1)) ∧
    (parse_ai_response "Department: HR\nDepartment: Marketing").1 = some "HR" ∧
    (parse_ai_response "Department: HR\nDepartment: Finance").1 = some "Finance" := by
  refine ⟨?_, by decide, by decide⟩
  unfold parse_ai_response
  have hsplit : (r1 ++ "\n" ++ r2).toList = r1.toList ++ '\n' :: r2.toList := by
    simp [String.toList, String.data_append]
  rw [hsplit, parseCore_append_fst]

end SmartTicket
